import Mathlib

set_option maxRecDepth 16000

/-!
Shallow embedding of `backend/main.py` (finance-tracker service).

Modelling conventions:
  * Python `float` amounts become `ℚ`; summation and `round(x, 2)` are modelled
    exactly (banker's rounding on the rational value).
  * Wall-clock times become `PyDateTime`: naive wall-clock seconds plus an
    optional UTC offset in minutes (`tz = none` models an offset-naive value).
    "Now" is passed explicitly as unix seconds.
  * JWTs are modelled concretely: the payload is a claims record serialised
    into a dot-free, whitespace-free alphabet (decimal digits and an
    underscore separator, standing in for base64url), and the signature is a
    deterministic tag of secret and payload (standing in for HMAC-SHA256).
    `jwtDecode` verifies the tag, then the `exp` claim (leeway 0), as jose does.
  * passlib bcrypt is modelled by a deterministic tagged hash: `verify_password`
    succeeds exactly on the password the hash was derived from.
  * The relational store is a `Store` record of user and transaction lists with
    auto-increment counters; each endpoint is a pure function from request and
    store to a `Res` (HTTP result or `HTTPException`) and, for mutating
    endpoints, an updated store.
-/

/-- Characters Python `str.split()` with no separator treats as whitespace
(ASCII fragment; headers in the model are ASCII). -/
def isPySpace (c : Char) : Bool :=
  c == ' ' || c == '\t' || c == '\n' || c == '\r' || c == '\x0b' || c == '\x0c'

/-- Accumulator-passing word splitter: `acc` is the in-progress word, in order. -/
def pyWordsAux : List Char → List Char → List (List Char)
  | [], acc => if acc = [] then [] else [acc]
  | c :: cs, acc =>
    if isPySpace c then
      if acc = [] then pyWordsAux cs [] else acc :: pyWordsAux cs []
    else pyWordsAux cs (acc ++ [c])

/-- Model of Python `s.split()`: split on whitespace runs, dropping empty parts. -/
def pySplit (s : String) : List String := (pyWordsAux s.toList []).map String.mk

/-- Model of Python `s.lower()` (ASCII lowering, as used on the auth scheme). -/
def lower (s : String) : String := String.mk (s.toList.map Char.toLower)

/-- Decimal digit character. -/
def digitChar (d : Nat) : Char := Char.ofNat (48 + d)

/-- Little-endian decimal digits of `n` (empty for 0); fuelled so it reduces. -/
def natDigitsAux : Nat → Nat → List Char
  | _, 0 => []
  | 0, _ + 1 => []
  | fuel + 1, n + 1 => digitChar ((n + 1) % 10) :: natDigitsAux fuel ((n + 1) / 10)

/-- Little-endian decimal digits of `n` (empty for 0). -/
def natDigits (n : Nat) : List Char := natDigitsAux n n

/-- Inverse of `natDigits` on digit strings. -/
def digitsToNat : List Char → Nat
  | [] => 0
  | c :: cs => (c.toNat - 48) + 10 * digitsToNat cs

/-- Signed decimal encoding of an integer (little-endian digits). -/
def intEncode (i : Int) : List Char :=
  if i < 0 then '-' :: natDigits (-i).toNat else natDigits i.toNat

/-- Inverse of `intEncode`. -/
def intDecode : List Char → Int
  | '-' :: cs => -(digitsToNat cs : Int)
  | cs => (digitsToNat cs : Int)

/-- Wire encoding of an arbitrary character sequence into the token alphabet
(decimal digits separated by underscores), standing in for base64url. Each
character becomes the digits of its codepoint plus one, so groups are nonempty. -/
def encodeChars : List Char → List Char
  | [] => []
  | [c] => natDigits (c.toNat + 1)
  | c :: cs => natDigits (c.toNat + 1) ++ '_' :: encodeChars cs

/-- Split on underscores (always returns at least one group). -/
def splitUS : List Char → List (List Char)
  | [] => [[]]
  | '_' :: cs => [] :: splitUS cs
  | c :: cs =>
    match splitUS cs with
    | [] => [[c]]
    | g :: gs => (c :: g) :: gs

/-- Inverse of `encodeChars`. -/
def decodeChars (l : List Char) : List Char :=
  match l with
  | [] => []
  | _ => (splitUS l).map (fun g => Char.ofNat (digitsToNat g - 1))

/-- Claims carried by an access token: the `sub` username and `exp` (unix seconds). -/
structure JwtClaims where
  sub : Option String
  exp : Int
deriving DecidableEq

/-- Serialisation of the claims record before signing: expiry digits, a bar, a
tag, then the subject. -/
def claimsRaw (c : JwtClaims) : List Char :=
  intEncode c.exp ++ '|' :: (match c.sub with
    | none => ['N']
    | some s => 'S' :: s.toList)

/-- Split at the first bar. -/
def splitBar : List Char → List Char × List Char
  | [] => ([], [])
  | '|' :: cs => ([], cs)
  | c :: cs =>
    let p := splitBar cs
    (c :: p.1, p.2)

/-- Inverse of `claimsRaw`. -/
def claimsRawDecode (l : List Char) : Option JwtClaims :=
  let p := splitBar l
  match p.2 with
  | ['N'] => some ⟨none, intDecode p.1⟩
  | 'S' :: rest => some ⟨some (String.mk rest), intDecode p.1⟩
  | _ => none

/-- Errors raised by the jose `jwt` module. -/
inductive JoseError where
  | invalidSignature
  | expiredSignature
  | malformed
deriving DecidableEq

/-- Deterministic model of the HS256 tag over the payload. -/
def macChars (secret : String) (payload : List Char) : List Char :=
  encodeChars secret.toList ++ '#' :: payload

/-- Split at the first dot (payload / signature separator). -/
def splitDot : List Char → List Char × List Char
  | [] => ([], [])
  | '.' :: cs => ([], cs)
  | c :: cs =>
    let p := splitDot cs
    (c :: p.1, p.2)

/-- Encoded payload part of a token. -/
def jwtPayload (c : JwtClaims) : List Char := encodeChars (claimsRaw c)

/-- Model of `jwt.encode(claims, secret, algorithm=HS256)`. -/
def jwtEncode (secret : String) (c : JwtClaims) : String :=
  String.mk (jwtPayload c ++ '.' :: macChars secret (jwtPayload c))

/-- Model of `jwt.decode`: verify the signature, then the `exp` claim
(expired exactly when `exp < now`, leeway 0). -/
def jwtDecode (secret : String) (now : Int) (token : String) : Except JoseError JwtClaims :=
  let p := splitDot token.toList
  if p.2 = macChars secret p.1 then
    match claimsRawDecode (decodeChars p.1) with
    | none => Except.error JoseError.malformed
    | some c =>
      if c.exp < now then Except.error JoseError.expiredSignature else Except.ok c
  else Except.error JoseError.invalidSignature

/-- Development default of the signing secret (`os.environ` override not modelled). -/
def SECRET_KEY : String := "change_this_secret_for_prod"

/-- Token lifetime: 7 days, in minutes. -/
def ACCESS_TOKEN_EXPIRE_MINUTES : Nat := 60 * 24 * 7

/-- Model of `create_access_token({"sub": username})` at unix time `now`:
expiry is `now` plus the default delta. -/
def create_access_token (now : Int) (sub : String) : String :=
  jwtEncode SECRET_KEY ⟨some sub, now + (ACCESS_TOKEN_EXPIRE_MINUTES : Int) * 60⟩

/-- Deterministic model of passlib bcrypt hashing. -/
def get_password_hash (password : String) : String := "$2b$12$" ++ password

/-- Model of `pwd_context.verify`: succeeds exactly on the hashed password. -/
def verify_password (plain hashed : String) : Bool := hashed = get_password_hash plain

/-- FastAPI `HTTPException` payload. -/
structure HTTPException where
  status_code : Nat
  detail : String
deriving DecidableEq

/-- Outcome of a request handler: a value or a raised `HTTPException`. -/
inductive Res (α : Type) where
  | ok : α → Res α
  | err : HTTPException → Res α
deriving DecidableEq

/-- Row of the `users` table. -/
structure UserDB where
  id : Int
  username : String
  hashed_password : String
deriving DecidableEq

/-- Timezone-aware timestamp: naive wall-clock seconds plus an optional UTC
offset in minutes (`none` = offset-naive). -/
structure PyDateTime where
  wall : Int
  tz : Option Int
deriving DecidableEq

/-- The fixed UTC+5:30 offset, in minutes. -/
def IST : Int := 330

/-- Model of `datetime.now(IST)` at unix time `now`. -/
def nowIST (now : Int) : PyDateTime := ⟨now + IST * 60, some IST⟩

/-- UTC instant of a timestamp (naive values compared at offset 0). -/
def instant (d : PyDateTime) : Int := d.wall - 60 * d.tz.getD 0

/-- Row of the `transactions` table. -/
structure TransactionDB where
  id : Int
  title : String
  amount : ℚ
  type : String
  category : Option String
  date : PyDateTime
  owner_id : Int
deriving DecidableEq

/-- The relational store: both tables plus auto-increment counters. -/
structure Store where
  users : List UserDB
  transactions : List TransactionDB
  nextUserId : Int
  nextTxId : Int
deriving DecidableEq

/-- Request body of `/register` and `/login`. -/
structure UserCreate where
  username : String
  password : String
deriving DecidableEq

/-- Request body of `/tx/add` (no constraint on `amount` or `type`, as in the
pydantic schema). -/
structure TransactionCreate where
  title : String
  amount : ℚ
  type : String
  category : Option String
  date : Option PyDateTime
deriving DecidableEq

/-- Response body of `/login`. -/
structure TokenResponse where
  access_token : String
  token_type : String
deriving DecidableEq

/-- Response body of `/summary`. -/
structure SummaryResponse where
  total_income : ℚ
  total_expense : ℚ
  net_balance : ℚ
deriving DecidableEq

/-- The shared 401 raised by token validation. -/
def credentials_exception : HTTPException := ⟨401, "Could not validate credentials"⟩

/-- Model of `get_current_user_from_token`: decode, read `sub` (rejecting a
missing or falsy value), then look the user up. -/
def get_current_user_from_token (now : Int) (token : String) (db : Store) : Res UserDB :=
  match jwtDecode SECRET_KEY now token with
  | Except.error _ => Res.err credentials_exception
  | Except.ok payload =>
    match payload.sub with
    | none => Res.err credentials_exception
    | some username =>
      if username = "" then Res.err credentials_exception
      else
        match db.users.find? (fun u => u.username == username) with
        | none => Res.err credentials_exception
        | some u => Res.ok u

/-- Model of `require_user_from_header`: reject a missing or falsy header, then
split it, requiring exactly two parts with a case-insensitive `bearer` scheme. -/
def require_user_from_header (now : Int) (authorization : Option String) (db : Store) :
    Res UserDB :=
  match authorization with
  | none => Res.err ⟨401, "Authorization header missing"⟩
  | some h =>
    if h = "" then Res.err ⟨401, "Authorization header missing"⟩
    else
      match pySplit h with
      | [scheme, token] =>
        if lower scheme = "bearer" then get_current_user_from_token now token db
        else Res.err ⟨401, "Invalid auth header"⟩
      | _ => Res.err ⟨401, "Invalid auth header"⟩

/-- Model of `POST /register`. -/
def register (user : UserCreate) (db : Store) : Res (Int × String) × Store :=
  match db.users.find? (fun u => u.username == user.username) with
  | some _ => (Res.err ⟨400, "Username already exists"⟩, db)
  | none =>
    let db_user : UserDB := ⟨db.nextUserId, user.username, get_password_hash user.password⟩
    (Res.ok (db_user.id, db_user.username),
     { db with users := db.users ++ [db_user], nextUserId := db.nextUserId + 1 })

/-- Model of `POST /login`. -/
def login (payload : UserCreate) (now : Int) (db : Store) : Res TokenResponse :=
  match db.users.find? (fun u => u.username == payload.username) with
  | none => Res.err ⟨401, "Invalid credentials"⟩
  | some user =>
    if verify_password payload.password user.hashed_password then
      Res.ok ⟨create_access_token now user.username, "bearer"⟩
    else Res.err ⟨401, "Invalid credentials"⟩

/-- Model of `POST /tx/add`. -/
def add_transaction_protected (now : Int) (tx : TransactionCreate)
    (authorization : Option String) (db : Store) : Res TransactionDB × Store :=
  match require_user_from_header now authorization db with
  | Res.err e => (Res.err e, db)
  | Res.ok user =>
    let tx_date := match tx.date with
      | none => nowIST now
      | some d => if d.tz = none then { d with tz := some IST } else d
    let db_tx : TransactionDB :=
      ⟨db.nextTxId, tx.title, tx.amount, tx.type, tx.category, tx_date, user.id⟩
    (Res.ok db_tx,
     { db with transactions := db.transactions ++ [db_tx], nextTxId := db.nextTxId + 1 })

/-- Stable insertion into a date-descending list. -/
def insertDateDesc (t : TransactionDB) : List TransactionDB → List TransactionDB
  | [] => [t]
  | u :: us =>
    if instant u.date ≤ instant t.date then t :: u :: us
    else u :: insertDateDesc t us

/-- Model of `ORDER BY date DESC` (stable sort on the timestamp instant). -/
def sortDateDesc (l : List TransactionDB) : List TransactionDB :=
  l.foldr insertDateDesc []

/-- Model of `GET /transactions`. -/
def get_transactions_protected (now : Int) (authorization : Option String) (db : Store) :
    Res (List TransactionDB) :=
  match require_user_from_header now authorization db with
  | Res.err e => Res.err e
  | Res.ok user =>
    Res.ok (sortDateDesc (db.transactions.filter (fun t => t.owner_id == user.id)))

/-- Model of `DELETE /delete-transaction/{tx_id}`: deletion of the found row by
primary key. -/
def delete_transaction_protected (now : Int) (tx_id : Int)
    (authorization : Option String) (db : Store) : Res String × Store :=
  match require_user_from_header now authorization db with
  | Res.err e => (Res.err e, db)
  | Res.ok user =>
    match db.transactions.find? (fun t => t.id == tx_id && t.owner_id == user.id) with
    | none => (Res.err ⟨404, "Transaction not found"⟩, db)
    | some _ =>
      (Res.ok ("Transaction " ++ toString tx_id ++ " deleted"),
       { db with transactions := db.transactions.filter (fun t => ! (t.id == tx_id)) })

/-- Model of Python `round` (banker's rounding) to an integer. -/
def round_py (x : ℚ) : ℤ :=
  let n := ⌊x⌋
  if x - n < 1 / 2 then n
  else if 1 / 2 < x - n then n + 1
  else if n % 2 = 0 then n else n + 1

/-- Model of Python `round(x, 2)`. -/
def round2 (x : ℚ) : ℚ := (round_py (x * 100) : ℚ) / 100

/-- Model of `GET /summary`. -/
def summary_protected (now : Int) (authorization : Option String) (db : Store) :
    Res SummaryResponse :=
  match require_user_from_header now authorization db with
  | Res.err e => Res.err e
  | Res.ok user =>
    let transactions := db.transactions.filter (fun t => t.owner_id == user.id)
    let total_income :=
      round2 (((transactions.filter (fun t => t.type == "income")).map (fun t => t.amount)).sum)
    let total_expense :=
      round2 (((transactions.filter (fun t => t.type == "expense")).map (fun t => t.amount)).sum)
    Res.ok ⟨total_income, total_expense, round2 (total_income - total_expense)⟩

/-- Python csv QUOTE_MINIMAL field encoding. -/
def csvField (s : String) : String :=
  if s.toList.any (fun c => c == ',' || c == '"' || c == '\r' || c == '\n') then
    "\"" ++
      String.mk (s.toList.foldr (fun c acc => if c == '"' then '"' :: '"' :: acc else c :: acc) [])
      ++ "\""
  else s

/-- One CSV record with the csv module's default line terminator. -/
def csvLine (fields : List String) : String :=
  String.intercalate "," (fields.map csvField) ++ "\r\n"

/-- Rendering of a stored timestamp (`isoformat()` over the abstract instant model). -/
def isoformat (d : PyDateTime) : String :=
  toString d.wall ++ (match d.tz with | none => "" | some o => "+" ++ toString o)

/-- One data row of the export. -/
def csvRow (r : TransactionDB) : String :=
  csvLine [toString r.id, r.title, toString r.amount, r.type, r.category.getD "", isoformat r.date]

/-- Header row of the export. -/
def csvHeader : String := csvLine ["id", "title", "amount", "type", "category", "date"]

/-- Model of the `iter_csv` generator: the sequence of chunks it yields. -/
def iter_csv (rows : List TransactionDB) : List String :=
  csvHeader :: rows.map csvRow

/-- Model of `GET /export-csv`: the streamed chunk sequence. -/
def export_csv_protected (now : Int) (authorization : Option String) (db : Store) :
    Res (List String) :=
  match require_user_from_header now authorization db with
  | Res.err e => Res.err e
  | Res.ok user =>
    Res.ok (iter_csv (sortDateDesc (db.transactions.filter (fun t => t.owner_id == user.id))))

/-! Concrete fixtures used by witnesses and counterexamples. -/

/-- Empty store at startup. -/
def emptyStore : Store := ⟨[], [], 1, 1⟩

/-- Store after registering `alice`. -/
def db1 : Store := (register ⟨"alice", "pw1"⟩ emptyStore).2

/-- Token issued to `alice` at time 0. -/
def tok1 : String := create_access_token 0 "alice"

/-- Well-formed auth header for `alice`. -/
def hdr1 : Option String := some ("Bearer " ++ tok1)

/-- Store after registering the empty username. -/
def dbE : Store := (register ⟨"", "pw"⟩ emptyStore).2

/-- Record for `alice` as stored. -/
def alice : UserDB := ⟨1, "alice", get_password_hash "pw1"⟩

/-- Second user fixture. -/
def bob : UserDB := ⟨2, "bob", get_password_hash "pw2"⟩

/-- Income transaction of `alice`. -/
def txA : TransactionDB := ⟨1, "salary", (21 : ℚ) / 2, "income", some "job", ⟨1000, some 330⟩, 1⟩

/-- Expense transaction of `alice`. -/
def txB : TransactionDB := ⟨2, "tea", 3, "expense", none, ⟨2000, some 330⟩, 1⟩

/-- Income transaction of `bob`. -/
def txC : TransactionDB := ⟨3, "gift", 100, "income", none, ⟨1500, some 330⟩, 2⟩

/-- Store with two users and three transactions. -/
def dbSum : Store := ⟨[alice, bob], [txA, txB, txC], 3, 4⟩

/-! Character-class and codec lemmas. -/

theorem isPySpace_le (c : Char) (h : isPySpace c = true) : c.toNat ≤ 32 := by
  simp [isPySpace] at h
  rcases h with ((((h | h) | h) | h) | h) | h <;> subst h <;> decide

theorem isPySpace_false_of_ge (c : Char) (h : 35 ≤ c.toNat) : isPySpace c = false := by
  rw [Bool.eq_false_iff]
  intro hc
  have := isPySpace_le c hc
  omega

theorem digitChar_toNat (d : Nat) (h : d < 10) : (digitChar d).toNat = 48 + d := by
  interval_cases d <;> decide

theorem digitsToNat_natDigitsAux :
    ∀ fuel n : Nat, n ≤ fuel → digitsToNat (natDigitsAux fuel n) = n := by
  intro fuel
  induction fuel with
  | zero => intro n hn; interval_cases n; rfl
  | succ f ih =>
    intro n hn
    match n with
    | 0 => rfl
    | m + 1 =>
      have hd : (m + 1) / 10 ≤ f := by omega
      have h10 : (m + 1) % 10 < 10 := Nat.mod_lt _ (by omega)
      simp only [natDigitsAux, digitsToNat]
      rw [ih _ hd, digitChar_toNat _ h10]
      omega

theorem digitsToNat_natDigits (n : Nat) : digitsToNat (natDigits n) = n :=
  digitsToNat_natDigitsAux n n le_rfl

theorem natDigitsAux_mem :
    ∀ fuel n : Nat, ∀ c ∈ natDigitsAux fuel n, 48 ≤ c.toNat ∧ c.toNat ≤ 57 := by
  intro fuel
  induction fuel with
  | zero =>
    intro n c hc
    match n with
    | 0 => simp [natDigitsAux] at hc
    | _ + 1 => simp [natDigitsAux] at hc
  | succ f ih =>
    intro n c hc
    match n with
    | 0 => simp [natDigitsAux] at hc
    | m + 1 =>
      simp only [natDigitsAux, List.mem_cons] at hc
      rcases hc with rfl | hc
      · have h10 : (m + 1) % 10 < 10 := Nat.mod_lt _ (by omega)
        rw [digitChar_toNat _ h10]
        omega
      · exact ih _ c hc

theorem natDigits_mem (n : Nat) (c : Char) (hc : c ∈ natDigits n) :
    48 ≤ c.toNat ∧ c.toNat ≤ 57 :=
  natDigitsAux_mem n n c hc

theorem natDigits_ne_nil (n : Nat) (h : 0 < n) : natDigits n ≠ [] := by
  match n, h with
  | m + 1, _ => simp [natDigits, natDigitsAux]

theorem intDecode_cons_ne (c : Char) (cs : List Char) (h : c ≠ '-') :
    intDecode (c :: cs) = (digitsToNat (c :: cs) : Int) := by
  rw [intDecode.eq_def]
  split
  · rename_i heq
    injection heq with h1 h2
    exact absurd h1 h
  · rfl

theorem intDecode_intEncode (i : Int) : intDecode (intEncode i) = i := by
  unfold intEncode
  split
  · rename_i hneg
    rw [intDecode]
    rw [digitsToNat_natDigits]
    omega
  · rename_i hpos
    have h0 : digitsToNat (natDigits i.toNat) = i.toNat := digitsToNat_natDigits i.toNat
    rcases h : natDigits i.toNat with _ | ⟨c, cs⟩
    · rw [h] at h0
      have h1 : intDecode ([] : List Char) = 0 := rfl
      rw [h1]
      simp [digitsToNat] at h0
      omega
    · have hc := natDigits_mem i.toNat c (by rw [h]; exact List.mem_cons_self c cs)
      have hcne : c ≠ '-' := by
        intro hceq
        rw [hceq] at hc
        exact absurd hc (by decide)
      rw [h] at h0
      rw [intDecode_cons_ne c cs hcne, h0]
      omega

theorem splitUS_cons_ne (c : Char) (cs : List Char) (h : c ≠ '_') :
    splitUS (c :: cs) = match splitUS cs with
      | [] => [[c]]
      | g :: gs => (c :: g) :: gs := by
  rw [splitUS.eq_def]
  split
  · rename_i heq
    simp at heq
  · rename_i x heq
    injection heq with h1 h2
    exact absurd h1 h
  · rename_i x c2 cs2 hne heq
    injection heq with h1 h2
    subst h1
    subst h2
    rfl

theorem splitUS_no_us (l : List Char) (h : ∀ c ∈ l, c ≠ '_') : splitUS l = [l] := by
  induction l with
  | nil => rfl
  | cons c cs ih =>
    rw [splitUS_cons_ne c cs (h c (List.mem_cons_self c cs))]
    rw [ih (fun x hx => h x (List.mem_cons_of_mem c hx))]

theorem splitUS_append (g rest : List Char) (h : ∀ c ∈ g, c ≠ '_') :
    splitUS (g ++ '_' :: rest) = g :: splitUS rest := by
  induction g with
  | nil => simp [splitUS]
  | cons c cs ih =>
    have hc : c ≠ '_' := h c (List.mem_cons_self c cs)
    rw [List.cons_append, splitUS_cons_ne c _ hc,
        ih (fun x hx => h x (List.mem_cons_of_mem c hx))]

theorem natDigits_ne_us (n : Nat) (c : Char) (hc : c ∈ natDigits n) : c ≠ '_' := by
  intro h
  have := natDigits_mem n c hc
  rw [h] at this
  exact absurd this (by decide)

theorem encodeChars_mem (l : List Char) (c : Char) (hc : c ∈ encodeChars l) :
    (48 ≤ c.toNat ∧ c.toNat ≤ 57) ∨ c = '_' := by
  induction l with
  | nil => simp [encodeChars] at hc
  | cons a as ih =>
    match as with
    | [] =>
      exact Or.inl (natDigits_mem _ c hc)
    | b :: bs =>
      rw [encodeChars.eq_def] at hc
      simp only [List.mem_append, List.mem_cons] at hc
      rcases hc with hc | rfl | hc
      · exact Or.inl (natDigits_mem _ c hc)
      · exact Or.inr rfl
      · exact ih hc

theorem encodeChars_ne_nil (l : List Char) (h : l ≠ []) : encodeChars l ≠ [] := by
  match l with
  | [c] =>
    exact natDigits_ne_nil (c.toNat + 1) (Nat.succ_pos _)
  | c :: b :: bs =>
    have : encodeChars (c :: b :: bs)
        = natDigits (c.toNat + 1) ++ '_' :: encodeChars (b :: bs) := rfl
    rw [this]
    simp

theorem decodeChars_cons (l : List Char) (h : l ≠ []) :
    decodeChars l = (splitUS l).map (fun g => Char.ofNat (digitsToNat g - 1)) := by
  rw [decodeChars.eq_def]
  split
  · exact absurd rfl h
  · rfl

theorem decodeChars_encodeChars (l : List Char) : decodeChars (encodeChars l) = l := by
  induction l with
  | nil => rfl
  | cons c cs ih =>
    match cs with
    | [] =>
      have h1 : encodeChars [c] = natDigits (c.toNat + 1) := rfl
      rw [h1, decodeChars_cons _ (natDigits_ne_nil _ (Nat.succ_pos _)),
          splitUS_no_us _ (natDigits_ne_us _)]
      simp only [List.map]
      rw [digitsToNat_natDigits]
      simp [Char.ofNat_toNat]
    | b :: bs =>
      have h1 : encodeChars (c :: b :: bs)
          = natDigits (c.toNat + 1) ++ '_' :: encodeChars (b :: bs) := rfl
      have hne : encodeChars (c :: b :: bs) ≠ [] := encodeChars_ne_nil _ (by simp)
      rw [h1] at hne ⊢
      rw [decodeChars_cons _ hne, splitUS_append _ _ (natDigits_ne_us _)]
      simp only [List.map]
      rw [digitsToNat_natDigits]
      simp only [Nat.add_sub_cancel, Char.ofNat_toNat]
      have hne2 : encodeChars (b :: bs) ≠ [] := encodeChars_ne_nil _ (by simp)
      have := ih
      rw [decodeChars_cons _ hne2] at this
      rw [this]

theorem splitBar_append (a b : List Char) (h : ∀ c ∈ a, c ≠ '|') :
    splitBar (a ++ '|' :: b) = (a, b) := by
  induction a with
  | nil => simp [splitBar]
  | cons c cs ih =>
    have hc : c ≠ '|' := h c (List.mem_cons_self c cs)
    have h2 := ih (fun x hx => h x (List.mem_cons_of_mem c hx))
    simp only [List.cons_append]
    rw [splitBar.eq_def]
    simp [hc, h2]

theorem splitDot_append (a b : List Char) (h : ∀ c ∈ a, c ≠ '.') :
    splitDot (a ++ '.' :: b) = (a, b) := by
  induction a with
  | nil => simp [splitDot]
  | cons c cs ih =>
    have hc : c ≠ '.' := h c (List.mem_cons_self c cs)
    have h2 := ih (fun x hx => h x (List.mem_cons_of_mem c hx))
    simp only [List.cons_append]
    rw [splitDot.eq_def]
    simp [hc, h2]

theorem intEncode_mem (i : Int) (c : Char) (hc : c ∈ intEncode i) :
    45 ≤ c.toNat ∧ c.toNat ≤ 57 := by
  unfold intEncode at hc
  split at hc
  · rcases List.mem_cons.mp hc with rfl | hc
    · decide
    · have := natDigits_mem _ c hc
      omega
  · have := natDigits_mem _ c hc
    omega

theorem intEncode_ne_bar (i : Int) (c : Char) (hc : c ∈ intEncode i) : c ≠ '|' := by
  intro h
  have := intEncode_mem i c hc
  rw [h] at this
  exact absurd this (by decide)

theorem claimsRawDecode_claimsRaw (c : JwtClaims) :
    claimsRawDecode (claimsRaw c) = some c := by
  unfold claimsRaw claimsRawDecode
  rw [splitBar_append _ _ (intEncode_ne_bar c.exp)]
  rcases c with ⟨sub, exp⟩
  cases sub with
  | none =>
    simp only
    rw [intDecode_intEncode]
  | some s =>
    simp only
    rw [intDecode_intEncode]
    have : String.mk s.toList = s := rfl
    rw [this]

theorem jwtPayload_ne_dot (cl : JwtClaims) (c : Char) (hc : c ∈ jwtPayload cl) : c ≠ '.' := by
  intro h
  rcases encodeChars_mem _ c hc with hd | hu
  · rw [h] at hd
    exact absurd hd (by decide)
  · rw [h] at hu
    exact absurd hu (by decide)

theorem jwtDecode_jwtEncode (secret : String) (now : Int) (c : JwtClaims) :
    jwtDecode secret now (jwtEncode secret c) =
      if c.exp < now then Except.error JoseError.expiredSignature else Except.ok c := by
  unfold jwtDecode jwtEncode
  have htl : (String.mk (jwtPayload c ++ '.' :: macChars secret (jwtPayload c))).toList
      = jwtPayload c ++ '.' :: macChars secret (jwtPayload c) := rfl
  rw [htl]
  rw [splitDot_append _ _ (jwtPayload_ne_dot c)]
  rw [if_pos rfl]
  have hdec : decodeChars (jwtPayload c) = claimsRaw c := decodeChars_encodeChars _
  rw [hdec, claimsRawDecode_claimsRaw]

theorem jwtEncode_chars (secret : String) (cl : JwtClaims) (c : Char)
    (hc : c ∈ (jwtEncode secret cl).toList) : 35 ≤ c.toNat := by
  have htl : (jwtEncode secret cl).toList
      = jwtPayload cl ++ '.' :: macChars secret (jwtPayload cl) := rfl
  rw [htl] at hc
  simp only [List.mem_append, List.mem_cons, macChars] at hc
  rcases hc with hc | rfl | hc | rfl | hc
  · rcases encodeChars_mem _ c hc with hd | rfl
    · omega
    · decide
  · decide
  · rcases encodeChars_mem _ c hc with hd | rfl
    · omega
    · decide
  · decide
  · rcases encodeChars_mem _ c hc with hd | rfl
    · omega
    · decide

theorem jwtEncode_not_space (secret : String) (cl : JwtClaims) (c : Char)
    (hc : c ∈ (jwtEncode secret cl).toList) : isPySpace c = false :=
  isPySpace_false_of_ge c (jwtEncode_chars secret cl c hc)

theorem jwtEncode_toList_ne_nil (secret : String) (cl : JwtClaims) :
    (jwtEncode secret cl).toList ≠ [] := by
  have htl : (jwtEncode secret cl).toList
      = jwtPayload cl ++ '.' :: macChars secret (jwtPayload cl) := rfl
  rw [htl]
  simp

theorem pyWordsAux_nonspace (l : List Char) (h : ∀ c ∈ l, isPySpace c = false) :
    ∀ acc : List Char, pyWordsAux l acc = if acc ++ l = [] then [] else [acc ++ l] := by
  induction l with
  | nil =>
    intro acc
    simp [pyWordsAux]
  | cons c cs ih =>
    intro acc
    have hc := h c (List.mem_cons_self c cs)
    rw [pyWordsAux, hc]
    simp only [Bool.false_eq_true, if_false]
    rw [ih (fun x hx => h x (List.mem_cons_of_mem c hx)) (acc ++ [c])]
    simp

theorem pySplit_bearer (t : String) (hne : t.toList ≠ [])
    (hns : ∀ c ∈ t.toList, isPySpace c = false) :
    pySplit ("Bearer " ++ t) = ["Bearer", t] := by
  unfold pySplit
  have htl : ("Bearer " ++ t).toList
      = 'B' :: 'e' :: 'a' :: 'r' :: 'e' :: 'r' :: ' ' :: t.toList := rfl
  rw [htl]
  rw [pyWordsAux, if_neg (by decide)]
  rw [pyWordsAux, if_neg (by decide)]
  rw [pyWordsAux, if_neg (by decide)]
  rw [pyWordsAux, if_neg (by decide)]
  rw [pyWordsAux, if_neg (by decide)]
  rw [pyWordsAux, if_neg (by decide)]
  rw [pyWordsAux, if_pos (by decide), if_neg (by decide)]
  rw [pyWordsAux_nonspace t.toList hns []]
  rw [if_neg (by simpa using hne)]
  simp only [List.nil_append, List.map]
  constructor

theorem bearer_prefix_ne_empty (t : String) : ("Bearer " ++ t) ≠ "" := by
  intro h
  have : ("Bearer " ++ t).toList = ("" : String).toList := by rw [h]
  simp only [show ("Bearer " ++ t).toList
      = 'B' :: 'e' :: 'a' :: 'r' :: 'e' :: 'r' :: ' ' :: t.toList from rfl] at this
  exact absurd this (by simp [String.toList])

theorem require_bearer (now : Int) (tok : String) (db : Store)
    (hne : tok.toList ≠ []) (hns : ∀ c ∈ tok.toList, isPySpace c = false) :
    require_user_from_header now (some ("Bearer " ++ tok)) db
      = get_current_user_from_token now tok db := by
  rw [require_user_from_header]
  rw [if_neg (bearer_prefix_ne_empty tok)]
  rw [pySplit_bearer tok hne hns]
  show (if lower "Bearer" = "bearer" then get_current_user_from_token now tok db
        else Res.err ⟨401, "Invalid auth header"⟩) = get_current_user_from_token now tok db
  rw [if_pos (show lower "Bearer" = "bearer" by decide)]

theorem get_current_user_jwtEncode (now : Int) (cl : JwtClaims) (db : Store) :
    get_current_user_from_token now (jwtEncode SECRET_KEY cl) db =
      if cl.exp < now then Res.err credentials_exception
      else
        match cl.sub with
        | none => Res.err credentials_exception
        | some username =>
          if username = "" then Res.err credentials_exception
          else
            match db.users.find? (fun u => u.username == username) with
            | none => Res.err credentials_exception
            | some u => Res.ok u := by
  unfold get_current_user_from_token
  rw [jwtDecode_jwtEncode]
  by_cases hexp : cl.exp < now
  · rw [if_pos hexp, if_pos hexp]
  · rw [if_neg hexp, if_neg hexp]

theorem require_bearer_jwtEncode (now : Int) (cl : JwtClaims) (db : Store) :
    require_user_from_header now (some ("Bearer " ++ jwtEncode SECRET_KEY cl)) db
      = get_current_user_from_token now (jwtEncode SECRET_KEY cl) db :=
  require_bearer now _ db (jwtEncode_toList_ne_nil _ _) (jwtEncode_not_space _ _)

theorem find?_append_of_none {α : Type} {p : α → Bool} {l1 l2 : List α}
    (h : l1.find? p = none) : (l1 ++ l2).find? p = l2.find? p := by
  rw [List.find?_append, h, Option.none_or]

theorem verify_password_hash (p : String) : verify_password p (get_password_hash p) = true := by
  simp [verify_password]

theorem insertDateDesc_perm (t : TransactionDB) (l : List TransactionDB) :
    (insertDateDesc t l).Perm (t :: l) := by
  induction l with
  | nil => simp [insertDateDesc]
  | cons u us ih =>
    unfold insertDateDesc
    split
    · exact List.Perm.refl _
    · exact (ih.cons u).trans (List.Perm.swap t u us)

theorem insertDateDesc_pairwise (t : TransactionDB) (l : List TransactionDB)
    (h : l.Pairwise (fun a b => instant b.date ≤ instant a.date)) :
    (insertDateDesc t l).Pairwise (fun a b => instant b.date ≤ instant a.date) := by
  induction l with
  | nil => simp [insertDateDesc]
  | cons u us ih =>
    rw [List.pairwise_cons] at h
    obtain ⟨h1, h2⟩ := h
    unfold insertDateDesc
    split
    · rename_i hle
      rw [List.pairwise_cons]
      refine ⟨?_, ?_⟩
      · intro b hb
        rcases List.mem_cons.mp hb with rfl | hb
        · exact hle
        · exact le_trans (h1 b hb) hle
      · rw [List.pairwise_cons]
        exact ⟨h1, h2⟩
    · rename_i hgt
      push_neg at hgt
      rw [List.pairwise_cons]
      refine ⟨?_, ih h2⟩
      intro b hb
      have hmem : b ∈ t :: us := (insertDateDesc_perm t us).mem_iff.mp hb
      rcases List.mem_cons.mp hmem with rfl | hb2
      · exact le_of_lt hgt
      · exact h1 b hb2

theorem sortDateDesc_perm (l : List TransactionDB) : (sortDateDesc l).Perm l := by
  induction l with
  | nil => rfl
  | cons x xs ih =>
    have hs : sortDateDesc (x :: xs) = insertDateDesc x (sortDateDesc xs) := rfl
    rw [hs]
    exact (insertDateDesc_perm x (sortDateDesc xs)).trans (ih.cons x)

theorem sortDateDesc_pairwise (l : List TransactionDB) :
    (sortDateDesc l).Pairwise (fun a b => instant b.date ≤ instant a.date) := by
  induction l with
  | nil => simp [sortDateDesc]
  | cons x xs ih =>
    have hs : sortDateDesc (x :: xs) = insertDateDesc x (sortDateDesc xs) := rfl
    rw [hs]
    exact insertDateDesc_pairwise x _ ih

/-- Claim C1: for every user, `summarize` returns totalIncome equal to the sum of
the amounts of that user's transactions with type "income" rounded to 2 decimal
places, totalExpense likewise for type "expense", and netBalance equal to
totalIncome minus totalExpense, also rounded to 2 decimal places. -/
theorem summary_totals_spec (now : Int) (auth : Option String) (db : Store) (u : UserDB)
    (h : require_user_from_header now auth db = Res.ok u) :
    summary_protected now auth db =
      Res.ok
        ⟨round2 (((db.transactions.filter
              (fun t => t.type == "income" && t.owner_id == u.id)).map (fun t => t.amount)).sum),
         round2 (((db.transactions.filter
              (fun t => t.type == "expense" && t.owner_id == u.id)).map (fun t => t.amount)).sum),
         round2
           (round2 (((db.transactions.filter
                (fun t => t.type == "income" && t.owner_id == u.id)).map (fun t => t.amount)).sum)
            - round2 (((db.transactions.filter
                (fun t => t.type == "expense" && t.owner_id == u.id)).map
                  (fun t => t.amount)).sum))⟩ := by
  unfold summary_protected
  rw [h]
  simp only [List.filter_filter]

/-- Witness: C1 applied to the concrete store `dbSum` for `alice`
(income 10.5, expense 3, net 7.5). -/
theorem summary_totals_spec_witness :
    require_user_from_header 0 hdr1 dbSum = Res.ok alice ∧
    summary_protected 0 hdr1 dbSum = Res.ok ⟨(21 : ℚ) / 2, 3, (15 : ℚ) / 2⟩ :=
  ⟨by decide,
   (summary_totals_spec 0 hdr1 dbSum alice (by decide)).trans (by
     simp +decide [dbSum, txA, txB, txC, alice]
     norm_num [round2, round_py])⟩

/-- Claim C2: delete succeeds (removing the transaction) iff a transaction with
that id exists and is owned by the requesting user; otherwise it fails with 404,
and the failure response for a transaction owned by another user is the same
constant as for a nonexistent id. -/
theorem delete_ownership_spec (now : Int) (auth : Option String) (db : Store) (u : UserDB)
    (tx_id : Int) (h : require_user_from_header now auth db = Res.ok u) :
    ((∃ t ∈ db.transactions, t.id = tx_id ∧ t.owner_id = u.id) →
        delete_transaction_protected now tx_id auth db =
          (Res.ok ("Transaction " ++ toString tx_id ++ " deleted"),
           { db with transactions := db.transactions.filter (fun t => ! (t.id == tx_id)) }))
    ∧ (¬ (∃ t ∈ db.transactions, t.id = tx_id ∧ t.owner_id = u.id) →
        delete_transaction_protected now tx_id auth db =
          (Res.err ⟨404, "Transaction not found"⟩, db)) := by
  have hred : delete_transaction_protected now tx_id auth db =
      match db.transactions.find? (fun t => t.id == tx_id && t.owner_id == u.id) with
      | none => (Res.err ⟨404, "Transaction not found"⟩, db)
      | some _ =>
        (Res.ok ("Transaction " ++ toString tx_id ++ " deleted"),
         { db with transactions := db.transactions.filter (fun t => ! (t.id == tx_id)) }) := by
    unfold delete_transaction_protected
    rw [h]
  rw [hred]
  constructor
  · intro hex
    have hsome : (db.transactions.find? (fun t => t.id == tx_id && t.owner_id == u.id)).isSome := by
      rw [List.find?_isSome]
      simpa using hex
    rcases Option.isSome_iff_exists.mp hsome with ⟨tx, htx⟩
    rw [htx]
  · intro hnex
    have hnone : db.transactions.find? (fun t => t.id == tx_id && t.owner_id == u.id) = none := by
      rw [List.find?_eq_none]
      intro x hx hpx
      exact hnex ⟨x, hx, by simpa using hpx⟩
    rw [hnone]

/-- Witness: C2 applied to `dbSum` for `alice`: deleting transaction 1 succeeds
and removes it; deleting the nonexistent id 99 fails with 404 and leaves the
store unchanged. -/
theorem delete_ownership_spec_witness :
    delete_transaction_protected 0 1 hdr1 dbSum =
      (Res.ok "Transaction 1 deleted", ⟨[alice, bob], [txB, txC], 3, 4⟩)
    ∧ delete_transaction_protected 0 99 hdr1 dbSum =
      (Res.err ⟨404, "Transaction not found"⟩, dbSum) :=
  ⟨((delete_ownership_spec 0 hdr1 dbSum alice 1 (by decide)).1
      ⟨txA, by simp [dbSum], by simp [txA, alice]⟩).trans
    (by simp +decide [dbSum, txA, txB, txC]),
   ((delete_ownership_spec 0 hdr1 dbSum alice 99 (by decide)).2
      (by simp +decide [dbSum, txA, txB, txC])).trans rfl⟩

/-- Claim C3: the list operation returns exactly the requesting user's
transactions sorted by timestamp descending (a permutation of the owner filter,
pairwise non-increasing instants), and the CSV export emits the header row
first followed by one row per transaction in the same order as list. -/
theorem transactions_order_spec (now : Int) (auth : Option String) (db : Store) (u : UserDB)
    (h : require_user_from_header now auth db = Res.ok u) :
    get_transactions_protected now auth db
        = Res.ok (sortDateDesc (db.transactions.filter (fun t => t.owner_id == u.id)))
    ∧ (sortDateDesc (db.transactions.filter (fun t => t.owner_id == u.id))).Perm
        (db.transactions.filter (fun t => t.owner_id == u.id))
    ∧ (sortDateDesc (db.transactions.filter (fun t => t.owner_id == u.id))).Pairwise
        (fun a b => instant b.date ≤ instant a.date)
    ∧ export_csv_protected now auth db
        = Res.ok (csvHeader ::
            (sortDateDesc (db.transactions.filter (fun t => t.owner_id == u.id))).map csvRow) := by
  refine ⟨?_, sortDateDesc_perm _, sortDateDesc_pairwise _, ?_⟩
  · unfold get_transactions_protected
    rw [h]
  · unfold export_csv_protected
    rw [h]
    rfl

/-- Witness: C3 applied to `dbSum` for `alice`: her transactions come back as
[txB (t=2000), txA (t=1000)], and the export is the header plus those two rows. -/
theorem transactions_order_spec_witness :
    get_transactions_protected 0 hdr1 dbSum = Res.ok [txB, txA]
    ∧ export_csv_protected 0 hdr1 dbSum = Res.ok [csvHeader, csvRow txB, csvRow txA] :=
  ⟨((transactions_order_spec 0 hdr1 dbSum alice (by decide)).1).trans
    (by simp +decide [dbSum, txA, txB, txC, sortDateDesc, insertDateDesc, instant]),
   ((transactions_order_spec 0 hdr1 dbSum alice (by decide)).2.2.2).trans
    (by simp +decide [dbSum, txA, txB, txC, sortDateDesc, insertDateDesc, instant])⟩

/-- Claim C4: if no date is supplied, the stored transaction's timestamp is the
creation time in the fixed UTC+5:30 offset; if an offset-naive date is
supplied, the stored timestamp keeps that wall-clock value tagged with the
UTC+5:30 offset. -/
theorem add_timestamp_spec (now : Int) (tx : TransactionCreate) (auth : Option String)
    (db : Store) (u : UserDB) (h : require_user_from_header now auth db = Res.ok u) :
    (tx.date = none →
      add_transaction_protected now tx auth db =
        (Res.ok ⟨db.nextTxId, tx.title, tx.amount, tx.type, tx.category,
            ⟨now + 330 * 60, some 330⟩, u.id⟩,
         { db with
            transactions := db.transactions ++ [⟨db.nextTxId, tx.title, tx.amount, tx.type,
              tx.category, ⟨now + 330 * 60, some 330⟩, u.id⟩],
            nextTxId := db.nextTxId + 1 }))
    ∧ (∀ d : PyDateTime, tx.date = some d → d.tz = none →
      add_transaction_protected now tx auth db =
        (Res.ok ⟨db.nextTxId, tx.title, tx.amount, tx.type, tx.category,
            ⟨d.wall, some 330⟩, u.id⟩,
         { db with
            transactions := db.transactions ++ [⟨db.nextTxId, tx.title, tx.amount, tx.type,
              tx.category, ⟨d.wall, some 330⟩, u.id⟩],
            nextTxId := db.nextTxId + 1 })) := by
  unfold add_transaction_protected
  rw [h]
  constructor
  · intro hd
    rw [hd]
    rfl
  · intro d hd htz
    rw [hd]
    rcases d with ⟨wall, tz⟩
    simp only at htz
    subst htz
    rfl

/-- Witness: C4 applied concretely: a dateless add at unix time 100 stores
wall clock 100 + 19800 at offset +330; an offset-naive date 1000 is stored as
wall clock 1000 at offset +330. -/
theorem add_timestamp_spec_witness :
    add_transaction_protected 100 ⟨"t", 3, "income", none, none⟩ hdr1 db1 =
      (Res.ok ⟨1, "t", 3, "income", none, ⟨19900, some 330⟩, 1⟩,
       ⟨[alice], [⟨1, "t", 3, "income", none, ⟨19900, some 330⟩, 1⟩], 2, 2⟩)
    ∧ add_transaction_protected 100 ⟨"t", 3, "income", none, some ⟨1000, none⟩⟩ hdr1 db1 =
      (Res.ok ⟨1, "t", 3, "income", none, ⟨1000, some 330⟩, 1⟩,
       ⟨[alice], [⟨1, "t", 3, "income", none, ⟨1000, some 330⟩, 1⟩], 2, 2⟩) :=
  ⟨((add_timestamp_spec 100 ⟨"t", 3, "income", none, none⟩ hdr1 db1 alice
      (by decide)).1 rfl).trans (by simp +decide [db1, emptyStore, register, alice]),
   ((add_timestamp_spec 100 ⟨"t", 3, "income", none, some ⟨1000, none⟩⟩ hdr1 db1 alice
      (by decide)).2 ⟨1000, none⟩ rfl rfl).trans
    (by simp +decide [db1, emptyStore, register, alice])⟩

/-- Counterexample to claim C9: the schema does not validate the amount, so an
add request with amount −5 succeeds and stores a transaction whose amount is
negative. -/
theorem add_negative_amount_cex :
    (add_transaction_protected 0 ⟨"t", -5, "expense", none, none⟩ hdr1 db1).1
      = Res.ok ⟨1, "t", -5, "expense", none, ⟨19800, some 330⟩, 1⟩
    ∧ ((add_transaction_protected 0 ⟨"t", -5, "expense", none, none⟩ hdr1 db1).2).transactions
      = [⟨1, "t", -5, "expense", none, ⟨19800, some 330⟩, 1⟩]
    ∧ ((-5 : ℚ) < 0) := by
  have hu : require_user_from_header 0 hdr1 db1 = Res.ok alice := by decide
  refine ⟨?_, ?_, by norm_num⟩ <;>
  · unfold add_transaction_protected
    rw [hu]
    simp +decide [db1, emptyStore, register, alice, nowIST, IST]

/-- Claim C9 (amended): the add-transaction operation stores the request's
amount unvalidated — the created transaction's amount always equals the
requested amount, whatever its sign, so negative amounts are admitted. -/
theorem add_amount_passthrough (now : Int) (tx : TransactionCreate) (auth : Option String)
    (db : Store) (u : UserDB) (h : require_user_from_header now auth db = Res.ok u) :
    ∃ r : TransactionDB, (add_transaction_protected now tx auth db).1 = Res.ok r
      ∧ r.amount = tx.amount
      ∧ (add_transaction_protected now tx auth db).2.transactions = db.transactions ++ [r] := by
  unfold add_transaction_protected
  rw [h]
  exact ⟨_, rfl, rfl, rfl⟩

/-- Witness: C9 (amended) applied to a concrete negative-amount request. -/
theorem add_amount_passthrough_witness :
    ∃ r : TransactionDB,
      (add_transaction_protected 0 ⟨"t", -5, "expense", none, none⟩ hdr1 db1).1 = Res.ok r
      ∧ r.amount = (⟨"t", -5, "expense", none, none⟩ : TransactionCreate).amount
      ∧ (add_transaction_protected 0 ⟨"t", -5, "expense", none, none⟩ hdr1 db1).2.transactions
          = db1.transactions ++ [r] :=
  add_amount_passthrough 0 ⟨"t", -5, "expense", none, none⟩ hdr1 db1 alice (by decide)

/-- Claim C7: a missing, falsy, or malformed Authorization header (not exactly
two whitespace-separated parts with a case-insensitive `bearer` scheme) makes
every protected request fail with a 401 error carrying a detail message,
independently of the store contents (no store access), and the mutating
endpoints leave the store unchanged. -/
theorem malformed_header_spec (now : Int) (auth : Option String) (db db2 : Store)
    (tx : TransactionCreate) (tx_id : Int)
    (h : auth = none ∨ auth = some "" ∨
      ∃ s, auth = some s ∧
        ((pySplit s).length ≠ 2 ∨ lower ((pySplit s).headD "") ≠ "bearer")) :
    (∃ e : HTTPException, require_user_from_header now auth db = Res.err e
        ∧ e.status_code = 401)
    ∧ require_user_from_header now auth db = require_user_from_header now auth db2
    ∧ (add_transaction_protected now tx auth db).2 = db
    ∧ (delete_transaction_protected now tx_id auth db).2 = db := by
  have key : ∀ d : Store, require_user_from_header now auth d =
      (if auth = none ∨ auth = some "" then Res.err ⟨401, "Authorization header missing"⟩
       else Res.err ⟨401, "Invalid auth header"⟩) := by
    intro d
    rcases h with rfl | rfl | ⟨s, rfl, hcond⟩
    · rw [if_pos (Or.inl rfl)]
      rfl
    · rw [if_pos (Or.inr rfl)]
      rfl
    · by_cases hs : s = ""
      · subst hs
        rw [if_pos (Or.inr rfl)]
        rfl
      · have hno : ¬ (some s = none ∨ some s = some "") := by
          rintro (hx | hx)
          · exact Option.noConfusion hx
          · exact hs (by injection hx)
        rw [if_neg hno]
        rw [require_user_from_header, if_neg hs]
        rcases hps : pySplit s with _ | ⟨a, rest⟩
        · rfl
        · cases rest with
          | nil => rfl
          | cons b rest2 =>
            cases rest2 with
            | nil =>
              have hba : lower a ≠ "bearer" := by
                rcases hcond with hl | hh
                · rw [hps] at hl
                  simp at hl
                · rw [hps] at hh
                  simpa using hh
              show (if lower a = "bearer" then get_current_user_from_token now b d
                    else Res.err ⟨401, "Invalid auth header"⟩)
                  = Res.err ⟨401, "Invalid auth header"⟩
              rw [if_neg hba]
            | cons c rest3 => rfl
  have hex : ∃ e : HTTPException, require_user_from_header now auth db = Res.err e
      ∧ e.status_code = 401 := by
    rw [key db]
    by_cases hc : auth = none ∨ auth = some ""
    · exact ⟨⟨401, "Authorization header missing"⟩, by rw [if_pos hc], rfl⟩
    · exact ⟨⟨401, "Invalid auth header"⟩, by rw [if_neg hc], rfl⟩
  obtain ⟨e, he, he401⟩ := hex
  refine ⟨⟨e, he, he401⟩, by rw [key db, key db2], ?_, ?_⟩
  · unfold add_transaction_protected
    rw [he]
  · unfold delete_transaction_protected
    rw [he]

/-- Witness: C7 applied to three malformed headers against two different
stores: absent header, wrong scheme, and a three-part header. -/
theorem malformed_header_spec_witness :
    (∃ e : HTTPException, require_user_from_header 0 none db1 = Res.err e
        ∧ e.status_code = 401)
    ∧ require_user_from_header 0 (some "Token abc") db1
        = require_user_from_header 0 (some "Token abc") dbSum
    ∧ (delete_transaction_protected 0 1 (some "Bearer x y") dbSum).2 = dbSum :=
  ⟨(malformed_header_spec 0 none db1 db1 ⟨"t", 0, "income", none, none⟩ 1
      (Or.inl rfl)).1,
   (malformed_header_spec 0 (some "Token abc") db1 dbSum ⟨"t", 0, "income", none, none⟩ 1
      (by exact Or.inr (Or.inr ⟨"Token abc", rfl, Or.inr (by decide)⟩))).2.1,
   (malformed_header_spec 0 (some "Bearer x y") dbSum dbSum ⟨"t", 0, "income", none, none⟩ 1
      (by exact Or.inr (Or.inr ⟨"Bearer x y", rfl, Or.inl (by decide)⟩))).2.2.2⟩

/-- Claim C8: a login attempt with an unknown username and one with a known
username but wrong password produce identical responses: the same 401 with the
same generic "Invalid credentials" detail. -/
theorem login_failure_uniform_spec (db : Store) (u1 p1 u2 p2 : String) (now1 now2 : Int)
    (usr : UserDB)
    (h1 : db.users.find? (fun u => u.username == u1) = none)
    (h2 : db.users.find? (fun u => u.username == u2) = some usr)
    (h3 : verify_password p2 usr.hashed_password = false) :
    login ⟨u1, p1⟩ now1 db = Res.err ⟨401, "Invalid credentials"⟩
    ∧ login ⟨u2, p2⟩ now2 db = Res.err ⟨401, "Invalid credentials"⟩
    ∧ login ⟨u1, p1⟩ now1 db = login ⟨u2, p2⟩ now2 db := by
  have ha : login ⟨u1, p1⟩ now1 db = Res.err ⟨401, "Invalid credentials"⟩ := by
    unfold login
    rw [h1]
  have hb : login ⟨u2, p2⟩ now2 db = Res.err ⟨401, "Invalid credentials"⟩ := by
    unfold login
    rw [h2]
    show (if verify_password p2 usr.hashed_password = true then
        Res.ok (TokenResponse.mk (create_access_token now2 usr.username) "bearer")
      else Res.err (HTTPException.mk 401 "Invalid credentials"))
      = Res.err (HTTPException.mk 401 "Invalid credentials")
    rw [h3]
    rfl
  exact ⟨ha, hb, ha.trans hb.symm⟩

/-- Witness: C8 applied to `db1`: unknown user `bob` and known user `alice`
with a wrong password get the identical 401 response. -/
theorem login_failure_uniform_spec_witness :
    login ⟨"bob", "x"⟩ 0 db1 = Res.err ⟨401, "Invalid credentials"⟩
    ∧ login ⟨"alice", "bad"⟩ 5 db1 = Res.err ⟨401, "Invalid credentials"⟩
    ∧ login ⟨"bob", "x"⟩ 0 db1 = login ⟨"alice", "bad"⟩ 5 db1 :=
  login_failure_uniform_spec db1 "bob" "x" "alice" "bad" 0 5 alice
    (by decide) (by decide) (by decide)

/-- Counterexample to claim C5: registration and login both succeed for the
empty username (no validation), yet the issued token is rejected by the auth
gate with 401, because the verifier treats the falsy `sub` claim as invalid. -/
theorem register_login_roundtrip_cex :
    (register ⟨"", "pw"⟩ emptyStore).1 = Res.ok (1, "")
    ∧ login ⟨"", "pw"⟩ 0 dbE = Res.ok ⟨create_access_token 0 "", "bearer"⟩
    ∧ require_user_from_header 0 (some ("Bearer " ++ create_access_token 0 "")) dbE
        = Res.err credentials_exception :=
  ⟨by decide, by decide, by decide⟩

/-- Claim C5 (amended): for every NON-EMPTY username and password with which
registration succeeded, logging in with the same credentials succeeds and
returns a bearer token, and presenting that token in the Authorization header
authorizes the auth gate shared by all protected endpoints as that user, as
long as the token has not expired. -/
theorem register_login_roundtrip (db : Store) (username password : String) (now now2 : Int)
    (hfree : db.users.find? (fun u => u.username == username) = none)
    (hne : username ≠ "")
    (hfresh : now2 ≤ now + 7 * 24 * 60 * 60) :
    (register ⟨username, password⟩ db).1 = Res.ok (db.nextUserId, username)
    ∧ login ⟨username, password⟩ now ((register ⟨username, password⟩ db).2)
        = Res.ok ⟨create_access_token now username, "bearer"⟩
    ∧ require_user_from_header now2 (some ("Bearer " ++ create_access_token now username))
        ((register ⟨username, password⟩ db).2)
        = Res.ok ⟨db.nextUserId, username, get_password_hash password⟩ := by
  have hreg : register ⟨username, password⟩ db =
      (Res.ok (db.nextUserId, username),
       { db with
          users := db.users ++ [⟨db.nextUserId, username, get_password_hash password⟩],
          nextUserId := db.nextUserId + 1 }) := by
    unfold register
    rw [hfree]
  have hfind2 : ((register ⟨username, password⟩ db).2).users.find?
      (fun u => u.username == username)
      = some ⟨db.nextUserId, username, get_password_hash password⟩ := by
    rw [hreg]
    show (db.users ++ [UserDB.mk db.nextUserId username (get_password_hash password)]).find?
        (fun u => u.username == username)
        = some (UserDB.mk db.nextUserId username (get_password_hash password))
    rw [find?_append_of_none hfree]
    simp [List.find?]
  have hexp6 : (ACCESS_TOKEN_EXPIRE_MINUTES : Int) * 60 = 7 * 24 * 60 * 60 := by
    norm_num [ACCESS_TOKEN_EXPIRE_MINUTES]
  refine ⟨by rw [hreg], ?_, ?_⟩
  · unfold login
    rw [hfind2]
    simp [verify_password]
  · have h1 : (create_access_token now username).toList ≠ [] :=
      jwtEncode_toList_ne_nil SECRET_KEY _
    have h2 : ∀ c ∈ (create_access_token now username).toList, isPySpace c = false :=
      jwtEncode_not_space SECRET_KEY _
    rw [require_bearer now2 (create_access_token now username) _ h1 h2]
    have hcast : create_access_token now username
        = jwtEncode SECRET_KEY ⟨some username, now + (ACCESS_TOKEN_EXPIRE_MINUTES : Int) * 60⟩ :=
      rfl
    rw [hcast, get_current_user_jwtEncode]
    rw [if_neg (by

      show ¬ (JwtClaims.mk (some username) (now + (ACCESS_TOKEN_EXPIRE_MINUTES : Int) * 60)).exp
          < now2
      simp only
      omega)]
    simp [hne, hfind2]

/-- Witness: C5 (amended) applied to registering `alice` in the empty store and
using the issued token immediately. -/
theorem register_login_roundtrip_witness :
    (register ⟨"alice", "pw1"⟩ emptyStore).1 = Res.ok (1, "alice")
    ∧ login ⟨"alice", "pw1"⟩ 0 ((register ⟨"alice", "pw1"⟩ emptyStore).2)
        = Res.ok ⟨create_access_token 0 "alice", "bearer"⟩
    ∧ require_user_from_header 0 (some ("Bearer " ++ create_access_token 0 "alice"))
        ((register ⟨"alice", "pw1"⟩ emptyStore).2)
        = Res.ok ⟨1, "alice", get_password_hash "pw1"⟩ := by
  have h := register_login_roundtrip emptyStore "alice" "pw1" 0 0
    (by decide) (by decide) (by norm_num)
  simpa [emptyStore] using h

/-- Claim C6: every issued token carries an absolute expiry of creation time
plus 7 days; while unexpired it decodes to its claims, and once the expiry lies
in the past the correctly signed token is rejected with 401 by the verifier and
by the auth gate of every protected endpoint. -/
theorem token_expiry_spec (now now2 : Int) (sub : String) (db : Store) :
    (¬ now + 7 * 24 * 60 * 60 < now2 →
      jwtDecode SECRET_KEY now2 (create_access_token now sub)
        = Except.ok ⟨some sub, now + 7 * 24 * 60 * 60⟩)
    ∧ (now + 7 * 24 * 60 * 60 < now2 →
      jwtDecode SECRET_KEY now2 (create_access_token now sub)
          = Except.error JoseError.expiredSignature
      ∧ get_current_user_from_token now2 (create_access_token now sub) db
          = Res.err credentials_exception
      ∧ require_user_from_header now2 (some ("Bearer " ++ create_access_token now sub)) db
          = Res.err credentials_exception) := by
  have hexp6 : now + (ACCESS_TOKEN_EXPIRE_MINUTES : Int) * 60 = now + 7 * 24 * 60 * 60 := by
    norm_num [ACCESS_TOKEN_EXPIRE_MINUTES]
  have hdec : ∀ n2 : Int, jwtDecode SECRET_KEY n2 (create_access_token now sub)
      = if now + 7 * 24 * 60 * 60 < n2 then Except.error JoseError.expiredSignature
        else Except.ok ⟨some sub, now + 7 * 24 * 60 * 60⟩ := by
    intro n2
    have hcast : create_access_token now sub
        = jwtEncode SECRET_KEY ⟨some sub, now + (ACCESS_TOKEN_EXPIRE_MINUTES : Int) * 60⟩ := rfl
    rw [hcast, jwtDecode_jwtEncode]
    simp only [hexp6]
  constructor
  · intro hnot
    rw [hdec now2, if_neg hnot]
  · intro hlt
    have h1 : jwtDecode SECRET_KEY now2 (create_access_token now sub)
        = Except.error JoseError.expiredSignature := by
      rw [hdec now2, if_pos hlt]
    have h2 : get_current_user_from_token now2 (create_access_token now sub) db
        = Res.err credentials_exception := by
      unfold get_current_user_from_token
      rw [h1]
    have h3 : require_user_from_header now2 (some ("Bearer " ++ create_access_token now sub)) db
        = Res.err credentials_exception := by
      rw [require_bearer now2 (create_access_token now sub) db
        (jwtEncode_toList_ne_nil SECRET_KEY _) (jwtEncode_not_space SECRET_KEY _)]
      exact h2
    exact ⟨h1, h2, h3⟩

/-- Witness: C6 applied at creation time 0: the token decodes at time 604800
(exactly 7 days) and is rejected by the gate at 604801. -/
theorem token_expiry_spec_witness :
    jwtDecode SECRET_KEY 604800 (create_access_token 0 "alice")
      = Except.ok ⟨some "alice", 0 + 7 * 24 * 60 * 60⟩
    ∧ require_user_from_header 604801 (some ("Bearer " ++ create_access_token 0 "alice")) db1
      = Res.err credentials_exception :=
  ⟨(token_expiry_spec 0 604800 "alice" db1).1 (by norm_num),
   ((token_expiry_spec 0 604801 "alice" db1).2 (by norm_num)).2.2⟩

/-- Claim C10: for a correctly signed, unexpired token, a missing `sub` claim or
a subject naming no stored user is rejected with 401 both by the token verifier
and by the shared auth gate; authentication succeeds only when the token's
subject names an existing user. -/
theorem token_sub_validation_spec (now : Int) (cl : JwtClaims) (db : Store)
    (hexp : ¬ cl.exp < now) :
    ((cl.sub = none ∨ (∀ s : String, cl.sub = some s →
          db.users.find? (fun u => u.username == s) = none)) →
        get_current_user_from_token now (jwtEncode SECRET_KEY cl) db
            = Res.err credentials_exception
        ∧ require_user_from_header now (some ("Bearer " ++ jwtEncode SECRET_KEY cl)) db
            = Res.err credentials_exception)
    ∧ (∀ u : UserDB,
        get_current_user_from_token now (jwtEncode SECRET_KEY cl) db = Res.ok u →
          cl.sub = some u.username ∧ u ∈ db.users) := by
  constructor
  · intro hbad
    have hg : get_current_user_from_token now (jwtEncode SECRET_KEY cl) db
        = Res.err credentials_exception := by
      rw [get_current_user_jwtEncode, if_neg hexp]
      rcases hbad with hnone | hfind
      · rw [hnone]
      · rcases hsub : cl.sub with _ | s
        · rfl
        · by_cases hs : s = ""
          · simp [hs]
          · simp [hs, hfind s hsub]
    exact ⟨hg, by rw [require_bearer_jwtEncode now cl db]; exact hg⟩
  · intro u hu
    rw [get_current_user_jwtEncode, if_neg hexp] at hu
    rcases hsub : cl.sub with _ | s
    · rw [hsub] at hu
      simp at hu
    · rw [hsub] at hu
      by_cases hs : s = ""
      · simp [hs] at hu
      · cases hfind : db.users.find? (fun x => x.username == s) with
        | none => simp [hs, hfind] at hu
        | some u2 =>
          simp [hs, hfind] at hu
          subst hu
          have hp := List.find?_some hfind
          rw [beq_iff_eq] at hp
          exact ⟨by rw [hp], List.mem_of_find?_eq_some hfind⟩

/-- Witness: C10 applied to a signed, unexpired token with no `sub` claim,
and to one whose subject `ghost` is not registered. -/
theorem token_sub_validation_spec_witness :
    (get_current_user_from_token 0 (jwtEncode SECRET_KEY ⟨none, 100⟩) db1
        = Res.err credentials_exception
      ∧ require_user_from_header 0 (some ("Bearer " ++ jwtEncode SECRET_KEY ⟨none, 100⟩)) db1
        = Res.err credentials_exception)
    ∧ (get_current_user_from_token 0 (jwtEncode SECRET_KEY ⟨some "ghost", 100⟩) db1
        = Res.err credentials_exception
      ∧ require_user_from_header 0
          (some ("Bearer " ++ jwtEncode SECRET_KEY ⟨some "ghost", 100⟩)) db1
        = Res.err credentials_exception) :=
  ⟨(token_sub_validation_spec 0 ⟨none, 100⟩ db1 (by decide)).1 (Or.inl rfl),
   (token_sub_validation_spec 0 ⟨some "ghost", 100⟩ db1 (by decide)).1
     (by exact Or.inr (fun s hs => by injection hs with h2; subst h2; decide))⟩
